import Mathlib

/-!
Verification of the instrumented reader-writer lock (`src/src/lib.rs`).

The development shallowly embeds the source file:

* `log_backtrace` (lines 154-190): the frame filter and trace formatter are
  embedded as pure functions over `Frame` lists; the `unwrap()` calls of the
  formatting fold are modelled by `Option`, `none` standing for a panic.
* `RwLock::new` / `read` / `write` (lines 19-41): the sequence counter is a
  `Nat` reduced mod `2 ^ 64` (an `AtomicU64`); the two separate atomic
  operations of each call (`fetch_add`, then `load`) become two steps of an
  interleaving semantics.
* Guards and `try_map` (lines 44-152): guard lifecycles are embedded as the
  lists of events (trace lines and underlying-hold transitions) their Rust
  destructors emit; `&mut T -> Option<&mut U>` projections become functions
  `T → T × Option (Lens T U)`, a `Lens` standing for the returned sub-place.
-/

namespace RwLockTrace

/-! ### Strings as character lists (paths of backtrace frames) -/

/-- Suffix test on the underlying characters, used for `Path::ends_with`. -/
def strEndsWith (p f : String) : Bool :=
  f.data.isSuffixOf p.data

/-- Does `l` contain `pat` as a contiguous sublist? -/
def hasSublist (pat : List Char) : List Char → Bool
  | [] => pat.isEmpty
  | c :: cs => pat.isPrefixOf (c :: cs) || hasSublist pat cs

/-- `p.to_string_lossy().contains(m)`: substring test on a path string. -/
def strContains (p m : String) : Bool :=
  hasSublist m.data p.data

/-- `Path::ends_with(f)`: the path equals `f` or ends with the components of
`f`, i.e. with `"/" ++ f` as a string suffix. -/
def pathEndsWith (p f : String) : Bool :=
  p == f || strEndsWith p ("/" ++ f)

/-! ### Frames (`backtrace::BacktraceSymbol`) and the frame filter -/

/-- One resolved symbol of a captured stack frame: `log_backtrace` consumes
the flat sequence of symbols of the raw outermost capture.  Each carries an
optional source path (`filename()`), line (`lineno()`) and symbol name
(`name()`). -/
structure Frame where
  filename : Option String
  lineno : Option Nat
  name : Option String
deriving DecidableEq, Repr

/-- `const FRAME_OFFSET: usize = 3;` (line 6). -/
def FRAME_OFFSET : Nat := 3

/-- `let this_file = file!();` — the instrumentation module's own source
file (line 155). -/
def thisFile : String := "src/lib.rs"

/-- The `skip_while` closure of lines 163-167: skip while the symbol's
filename does not end with `this_file`; a symbol with no filename is also
skipped (`unwrap_or(true)`). -/
def skipUntilThisFile (s : Frame) : Bool :=
  match s.filename with
  | some p => !(pathEndsWith p thisFile)
  | none => true

/-- The path test inside the `filter` closure of lines 169-176: keep only
symbols with a filename free of the `.cargo`, `.rustup` and `/rustc`
markers; a symbol with no filename is rejected (`map_or(false, ..)`). -/
def cleanPath (s : Frame) : Bool :=
  match s.filename with
  | some p =>
      !(strContains p ".cargo") && !(strContains p ".rustup") &&
        !(strContains p "/rustc")
  | none => false

/-- The full `filter` closure of lines 169-176: `i >= FRAME_OFFSET` and the
path test. -/
def keepFrame (i : Nat) (s : Frame) : Bool :=
  decide (FRAME_OFFSET ≤ i) && cleanPath s

/-- The symbol pipeline of lines 159-176: `skip_while` (dropWhile), then
`enumerate`, then `filter`.  Indices are positions in the post-skip
sequence. -/
def filterSymbols (frames : List Frame) : List (Nat × Frame) :=
  ((frames.dropWhile skipUntilThisFile).enum).filter fun p => keepFrame p.1 p.2

/-! ### The trace formatter -/

/-- One line of the fold of lines 178-187:
`format!("[{}] {}:{} {}\n", i - FRAME_OFFSET, filename, lineno, name)`.
The three `unwrap()` calls panic when a field is missing; `none` models the
panic. -/
def formatLine (i : Nat) (s : Frame) : Option String :=
  match s.filename, s.lineno, s.name with
  | some p, some l, some n =>
      some ("[" ++ toString (i - FRAME_OFFSET) ++ "] " ++ p ++ ":" ++
        toString l ++ " " ++ n ++ "\n")
  | _, _, _ => none

/-- One step of the formatting fold: append the next formatted line to the
accumulator, propagating a panic. -/
def formatStep (acc : Option String) (p : Nat × Frame) : Option String :=
  match acc, formatLine p.1 p.2 with
  | some a, some line => some (a ++ line)
  | _, _ => none

/-- The fold of lines 178-187 over the filtered symbols, starting from
`String::new()`. -/
def formatSymbols (xs : List (Nat × Frame)) : Option String :=
  xs.foldl formatStep (some "")

/-- Severity levels of the logging collaborator; `log_backtrace` only ever
emits at `warn` (line 189). -/
inductive Level
  | warn
  | info
deriving DecidableEq, Repr

/-- `log_backtrace` (lines 154-190): filter the symbols, format them, and
emit `log::warn!("{}:\n{}", message, output)`.  `none` models a panic in the
formatting fold. -/
def logBacktrace (message : String) (frames : List Frame) :
    Option (Level × String) :=
  match formatSymbols (filterSymbols frames) with
  | some out => some (Level.warn, message ++ ":\n" ++ out)
  | none => none

/-! ### The lock, its sequence counter, and the acquisition steps -/

/-- `RwLock<T>` (lines 8-13): the tokio lock's protected value, the
generated name, and the `AtomicU64` counter `idx`. -/
structure RwLock (T : Type) where
  value : T
  name : String
  idx : Nat

/-- `RwLock::new` (lines 19-27): wrap the value, draw a name from the
external generator (passed in, the generator is an external collaborator),
and initialise `idx` to `0`. -/
def RwLock.new {T : Type} (inner : T) (generated : String) : RwLock T :=
  { value := inner, name := generated, idx := 0 }

/-- `u64` wrap-around modulus for the atomic counter. -/
def u64Mod : Nat := 2 ^ 64

/-- The two separate atomic operations each `read`/`write` call performs on
the counter (lines 30-31 and 37-38): first
`self.idx.fetch_add(1, SeqCst)` with its return value discarded, then
`let idx = self.idx.load(SeqCst)`. -/
inductive SeqStep
  | fetchAdd
  | load
deriving DecidableEq, Repr

/-- Run a schedule of counter steps, each tagged with the id of the calling
task, from counter value `c`.  A `fetchAdd` bumps the counter (wrapping as a
`u64`); a `load` records the value the tagged call observes as its sequence
number. -/
def execSchedule (c : Nat) : List (Nat × SeqStep) → List (Nat × Nat)
  | [] => []
  | (_, SeqStep.fetchAdd) :: rest => execSchedule ((c + 1) % u64Mod) rest
  | (id, SeqStep.load) :: rest => (id, c) :: execSchedule c rest

/-- The steps a given call id contributes to a schedule, in order. -/
def callSteps (sch : List (Nat × SeqStep)) (id : Nat) : List SeqStep :=
  (sch.filter fun p => p.1 == id).map Prod.snd

/-- A schedule is a valid interleaving of `n` concurrent `read`/`write`
calls when every call performs exactly its `fetch_add` followed by its
`load`, in that order (as lines 30-31 / 37-38 do). -/
def isInterleaving (sch : List (Nat × SeqStep)) (n : Nat) : Prop :=
  ∀ id < n, callSteps sch id = [SeqStep.fetchAdd, SeqStep.load]

instance (sch : List (Nat × SeqStep)) (n : Nat) :
    Decidable (isInterleaving sch n) :=
  Nat.decidableBallLT n fun id _ => callSteps sch id = _

/-! ### Guard lifecycles as event lists -/

/-- Whether an acquisition is shared (`read`) or exclusive (`write`). -/
inductive Kind
  | read
  | write
deriving DecidableEq, Repr

/-- Observable events of a guard's lifecycle: the three trace lines
(`Acquire`, `Got`, `Release`, each tagged with kind, lock name and sequence
number), the underlying primitive granting a hold, and the underlying hold
being released (the tokio guard's own destructor running). -/
inductive Event
  | acqReq (k : Kind) (name : String) (idx : Nat)
  | grantHold (k : Kind)
  | got (k : Kind) (name : String) (idx : Nat)
  | releaseTrace (k : Kind) (name : String) (idx : Nat)
  | releaseHold
deriving DecidableEq, Repr

/-- Events emitted while `write` (lines 36-41) acquires: the
`[WRITE] Acquire` trace, then the underlying primitive grants at the await
point, then `RwLockWriteGuard::new` (lines 107-111) logs `[WRITE] Got`. -/
def writeAcquireEvents (name : String) (idx : Nat) : List Event :=
  [Event.acqReq Kind.write name idx, Event.grantHold Kind.write,
    Event.got Kind.write name idx]

/-- Events of `Drop for RwLockWriteGuard` (lines 134-138): log
`[WRITE] Release`, then the fields are dropped, releasing the underlying
tokio write guard. -/
def writeGuardDropEvents (name : String) (idx : Nat) : List Event :=
  [Event.releaseTrace Kind.write name idx, Event.releaseHold]

/-- Events of `Drop for RwLockReadGuard` (lines 59-63): log
`[READ] Release`, then the tokio read guard is dropped. -/
def readGuardDropEvents (name : String) (idx : Nat) : List Event :=
  [Event.releaseTrace Kind.read name idx, Event.releaseHold]

/-- Events emitted while `read` (lines 29-34) acquires: the
`[READ] Acquire` trace, then the underlying primitive grants shared access
at the await point, then `RwLockReadGuard::new` (lines 51-57) logs
`[READ] Got`. -/
def readAcquireEvents (name : String) (idx : Nat) : List Event :=
  [Event.acqReq Kind.read name idx, Event.grantHold Kind.read,
    Event.got Kind.read name idx]

/-- The full event trace of one `write` call whose guard is dropped after
the arbitrary events `body` of the critical section. -/
def writeLifecycleEvents (name : String) (idx : Nat) (body : List Event) :
    List Event :=
  writeAcquireEvents name idx ++ body ++ writeGuardDropEvents name idx

/-- The full event trace of one `read` call whose guard is dropped after
the arbitrary events `body` of the critical section. -/
def readLifecycleEvents (name : String) (idx : Nat) (body : List Event) :
    List Event :=
  readAcquireEvents name idx ++ body ++ readGuardDropEvents name idx

/-- The acquire events of either kind of call, kind-generic: `read` and
`write` emit the same shape of trace around the underlying grant. -/
def acquireEvents (k : Kind) (name : String) (idx : Nat) : List Event :=
  [Event.acqReq k name idx, Event.grantHold k, Event.got k name idx]

/-- The drop events of either kind of guard, kind-generic. -/
def guardDropEvents (k : Kind) (name : String) (idx : Nat) : List Event :=
  [Event.releaseTrace k name idx, Event.releaseHold]

/-- The kind-generic lifecycle trace; `readLifecycleEvents` and
`writeLifecycleEvents` are its two instances. -/
def lifecycleEvents (k : Kind) (name : String) (idx : Nat)
    (body : List Event) : List Event :=
  acquireEvents k name idx ++ body ++ guardDropEvents k name idx

/-- Trace lines are the events that print something via `log_backtrace`;
hold transitions are not trace lines. -/
def isTraceLine : Event → Bool
  | Event.acqReq _ _ _ => true
  | Event.got _ _ _ => true
  | Event.releaseTrace _ _ _ => true
  | Event.grantHold _ => false
  | Event.releaseHold => false

/-! ### Write guards, mapped guards and `try_map` -/

/-- A mutable sub-place of `T` of type `U`: the shallow embedding of the
`&mut U` a projection returns into the protected value. -/
structure Lens (T U : Type) where
  get : T → U
  set : T → U → T

/-- `RwLockWriteGuard<'a, T>` (lines 99-104): the protected value reachable
through the owned tokio write guard, the lock-name reference and the
sequence number. -/
structure RwLockWriteGuard (T : Type) where
  value : T
  name : String
  idx : Nat

/-- `RwLockMappedWriteGuard<'a, T>` (lines 79-83): a raw pointer to a
sub-object of the protected allocation plus a lifetime marker — modelled as
the allocation's value together with the lens the pointer denotes.  It
stores no tokio guard and has no `Drop` impl. -/
structure RwLockMappedWriteGuard (T U : Type) where
  value : T
  lens : Lens T U

/-- Reading the full protected value through the write guard
(`Deref`/`DerefMut`, lines 140-152, composed with the tokio guard's own
deref). -/
def RwLockWriteGuard.derefValue {T : Type} (g : RwLockWriteGuard T) : T :=
  g.value

/-- Writing the full protected value through the write guard. -/
def RwLockWriteGuard.setValue {T : Type} (g : RwLockWriteGuard T) (v : T) :
    RwLockWriteGuard T :=
  { g with value := v }

/-- Reading through the mapped guard (`Deref`, lines 85-91): dereference
the raw pointer, i.e. read the sub-place. -/
def RwLockMappedWriteGuard.derefValue {T U : Type}
    (g : RwLockMappedWriteGuard T U) : U :=
  g.lens.get g.value

/-- `RwLockWriteGuard::try_map` (lines 113-131).  The Rust projection
`FnOnce(&mut T) -> Option<&mut U>` is embedded as
`f : T → T × Option (Lens T U)`: it may mutate the protected value through
the `&mut T` it is handed (the first component is the value afterwards) and
optionally return a sub-place.  On `Some`, the original guard is
`mem::forget`-ten and a mapped guard over the captured place is returned;
on `None`, `Err(this)` hands back the original guard (over the
possibly-mutated value). -/
def RwLockWriteGuard.tryMap {T U : Type} (this : RwLockWriteGuard T)
    (f : T → T × Option (Lens T U)) :
    Except (RwLockWriteGuard T) (RwLockMappedWriteGuard T U) :=
  match f this.value with
  | (v', none) => Except.error { this with value := v' }
  | (v', some l) => Except.ok { value := v', lens := l }

/-- Events of dropping a `RwLockMappedWriteGuard`: the type has no `Drop`
impl, and its fields are a raw pointer and a `PhantomData`, so dropping it
emits no trace line and does not release the underlying hold. -/
def mappedGuardDropEvents {T U : Type} (_g : RwLockMappedWriteGuard T U) :
    List Event :=
  []

/-- Events emitted from the moment `try_map` runs until the guard that came
out of it is destroyed.  On success the consumed write guard is
`mem::forget`-ten (its destructor is suppressed, no events) and only the
mapped guard's drop events follow; on failure the returned original guard
is eventually dropped normally. -/
def tryMapTransitionEvents {T U : Type} (g : RwLockWriteGuard T)
    (f : T → T × Option (Lens T U)) : List Event :=
  match RwLockWriteGuard.tryMap g f with
  | Except.ok m => mappedGuardDropEvents m
  | Except.error g2 => writeGuardDropEvents g2.name g2.idx

/-- The protected value as seen through whichever guard `try_map`
returned. -/
def projectedValue {T U : Type} :
    Except (RwLockWriteGuard T) (RwLockMappedWriteGuard T U) → T
  | Except.error g => g.value
  | Except.ok m => m.value

/-! ### Concrete instances used by closed theorems -/

/-- The sub-place `.0` of a pair of naturals. -/
def fstLens : Lens (Nat × Nat) Nat :=
  { get := Prod.fst, set := fun v u => (u, v.2) }

/-- A write guard over `(5, 7)` on the lock named `lock-a`, sequence 1. -/
def gPair : RwLockWriteGuard (Nat × Nat) :=
  { value := (5, 7), name := "lock-a", idx := 1 }

/-- The racy interleaving of two concurrent calls: both `fetch_add`s run
before either `load`. -/
def racySchedule : List (Nat × SeqStep) :=
  [(0, SeqStep.fetchAdd), (1, SeqStep.fetchAdd),
    (0, SeqStep.load), (1, SeqStep.load)]

/-- The fully sequential schedule of the same two calls. -/
def seqSchedule : List (Nat × SeqStep) :=
  [(0, SeqStep.fetchAdd), (0, SeqStep.load),
    (1, SeqStep.fetchAdd), (1, SeqStep.load)]

/-! ### Claims about `try_map` and the guards -/

/-- C1 (code bug): across a successful `try_map` transition the underlying
exclusive hold is released zero times, not exactly once: `mem::forget(this)`
suppresses the consumed write guard's destructor (so the tokio guard inside
it is leaked), and the returned `RwLockMappedWriteGuard` stores no guard and
has no `Drop` impl, so destroying it releases nothing either.  For contrast,
dropping a write guard normally does release the hold exactly once, so the
model does track the release. -/
theorem tryMap_transition_releases_zero :
    (tryMapTransitionEvents gPair fun v => (v, some fstLens)).count
        Event.releaseHold = 0 ∧
    (writeGuardDropEvents gPair.name gPair.idx).count Event.releaseHold = 1 ∧
    (tryMapTransitionEvents gPair fun v => (v, some fstLens)).count
        Event.releaseHold ≠ 1 := by
  decide

/-- C2 (code bug): `read`/`write` perform `fetch_add` and then a separate
`load` (lines 30-31, 37-38), so under the racy interleaving — a valid
interleaving of two concurrent calls on a fresh lock — both calls observe
sequence number 2: the numbers are neither pairwise distinct nor a
permutation of `1..2`.  Sequentially the same two calls do observe `1` then
`2`. -/
theorem duplicate_sequence_numbers :
    isInterleaving racySchedule 2 ∧
    execSchedule (RwLock.new (0 : Nat) "lock-b").idx racySchedule =
      [(0, 2), (1, 2)] ∧
    ¬ ((execSchedule (RwLock.new (0 : Nat) "lock-b").idx racySchedule).map
        Prod.snd).Nodup ∧
    ¬ List.Perm ((execSchedule (RwLock.new (0 : Nat) "lock-b").idx
        racySchedule).map Prod.snd) [1, 2] ∧
    isInterleaving seqSchedule 2 ∧
    execSchedule (RwLock.new (0 : Nat) "lock-b").idx seqSchedule =
      [(0, 1), (1, 2)] := by
  decide

/-- C7: when the projection returns `None`, `try_map` returns
`Err(this)` — the original guard over the (possibly `f`-mutated) value,
with the same name and sequence number; the caller can still read and write
the full protected value through it, and dropping it later emits the
`[WRITE] Release` trace and releases the underlying hold exactly once. -/
theorem tryMap_failure_returns_guard {T U : Type} (g : RwLockWriteGuard T)
    (f : T → T × Option (Lens T U)) (h : (f g.value).2 = none) :
    RwLockWriteGuard.tryMap g f =
      Except.error { g with value := (f g.value).1 } ∧
    RwLockWriteGuard.name { g with value := (f g.value).1 } = g.name ∧
    RwLockWriteGuard.idx { g with value := (f g.value).1 } = g.idx ∧
    RwLockWriteGuard.derefValue { g with value := (f g.value).1 } =
      (f g.value).1 ∧
    (∀ v : T, RwLockWriteGuard.derefValue
        (RwLockWriteGuard.setValue { g with value := (f g.value).1 } v) = v) ∧
    tryMapTransitionEvents g f =
      [Event.releaseTrace Kind.write g.name g.idx, Event.releaseHold] ∧
    (tryMapTransitionEvents g f).count Event.releaseHold = 1 := by
  have hf : f g.value = ((f g.value).1, none) := by rw [← h]
  have hmap : RwLockWriteGuard.tryMap g f =
      Except.error { g with value := (f g.value).1 } := by
    unfold RwLockWriteGuard.tryMap
    rw [hf]
  have hevents : tryMapTransitionEvents g f =
      [Event.releaseTrace Kind.write g.name g.idx, Event.releaseHold] := by
    unfold tryMapTransitionEvents
    rw [hmap]
    rfl
  refine ⟨hmap, rfl, rfl, rfl, fun v => rfl, hevents, ?_⟩
  rw [hevents]
  rfl

/-- Witness for C7 at a concrete guard and a projection that returns
nothing. -/
theorem tryMap_failure_returns_guard_witness :
    RwLockWriteGuard.tryMap gPair
        (fun v => (v, (none : Option (Lens (Nat × Nat) Nat)))) =
      Except.error { gPair with value := (5, 7) } ∧
    (tryMapTransitionEvents gPair
        (fun v => (v, (none : Option (Lens (Nat × Nat) Nat))))).count
      Event.releaseHold = 1 :=
  ⟨(tryMap_failure_returns_guard gPair _ rfl).1,
    (tryMap_failure_returns_guard gPair _ rfl).2.2.2.2.2.2⟩

/-- C8: for a projection that selects a sub-place, `try_map` returns a
mapped guard over the same protected value, and reading through that mapped
guard yields exactly the sub-field as read directly through the original
guard. -/
theorem tryMap_success_reads_subfield {T U : Type} (g : RwLockWriteGuard T)
    (l : Lens T U) :
    RwLockWriteGuard.tryMap g (fun v => (v, some l)) =
      Except.ok { value := g.value, lens := l } ∧
    RwLockMappedWriteGuard.derefValue
        (RwLockMappedWriteGuard.mk g.value l) =
      l.get (RwLockWriteGuard.derefValue g) :=
  ⟨rfl, rfl⟩

/-- C9: `try_map` applies the projection exactly once to the full protected
value before branching, so the value seen through whichever guard comes
back — mapped guard on success, original guard on failure — is the
projection's output value; on the failure branch the original guard comes
back over the mutated value with name and sequence number intact, with no
restoration of the pre-projection value. -/
theorem tryMap_applies_projection_once {T U : Type} (g : RwLockWriteGuard T)
    (f : T → T × Option (Lens T U)) :
    projectedValue (RwLockWriteGuard.tryMap g f) = (f g.value).1 ∧
    ∀ g2 : RwLockWriteGuard T,
      RwLockWriteGuard.tryMap g f = Except.error g2 →
        g2.name = g.name ∧ g2.idx = g.idx ∧ g2.value = (f g.value).1 := by
  rcases hfv : f g.value with ⟨v', o⟩
  have hv : (f g.value).1 = v' := by rw [hfv]
  cases o with
  | none =>
    constructor
    · simp [RwLockWriteGuard.tryMap, hfv, projectedValue, hv]
    · intro g2 heq
      simp [RwLockWriteGuard.tryMap, hfv] at heq
      rw [← heq]
      exact ⟨rfl, rfl, rfl⟩
  | some l =>
    constructor
    · simp [RwLockWriteGuard.tryMap, hfv, projectedValue, hv]
    · intro g2 heq
      simp [RwLockWriteGuard.tryMap, hfv] at heq

/-- A projection that bumps the pair's first component through the `&mut T`
and then returns no sub-place. -/
def bumpThenNone : (Nat × Nat) → (Nat × Nat) × Option (Lens (Nat × Nat) Nat) :=
  fun v => ((v.1 + 1, v.2), none)

/-- The guard `try_map` hands back after `bumpThenNone` ran on `gPair`. -/
def gPairBumped : RwLockWriteGuard (Nat × Nat) :=
  { value := (6, 7), name := "lock-a", idx := 1 }

/-- Witness for C9: the mutation performed by the failing projection
persists in the guard handed back. -/
theorem tryMap_applies_projection_once_witness :
    projectedValue (RwLockWriteGuard.tryMap gPair bumpThenNone) = (6, 7) ∧
    gPairBumped.value = (6, 7) :=
  ⟨(tryMap_applies_projection_once gPair bumpThenNone).1,
    ((tryMap_applies_projection_once gPair bumpThenNone).2 gPairBumped
      rfl).2.2⟩

/-- Witness for C8 at a concrete guard and sub-place. -/
theorem tryMap_success_reads_subfield_witness :
    RwLockWriteGuard.tryMap gPair (fun v => (v, some fstLens)) =
      Except.ok { value := gPair.value, lens := fstLens } :=
  (tryMap_success_reads_subfield gPair fstLens).1

/-- C10: dropping a `RwLockMappedWriteGuard` emits no event at all — in
particular no trace line — while dropping a read or write guard does emit a
`Release` trace line. -/
theorem mapped_guard_drop_is_silent {T U : Type}
    (g : RwLockMappedWriteGuard T U) (name : String) (idx : Nat) :
    mappedGuardDropEvents g = [] ∧
    (mappedGuardDropEvents g).any isTraceLine = false ∧
    (readGuardDropEvents name idx).any isTraceLine = true ∧
    (writeGuardDropEvents name idx).any isTraceLine = true :=
  ⟨rfl, rfl, rfl, rfl⟩

/-- A concrete mapped guard over the pair `(5, 7)` and its first
component. -/
def mappedPair : RwLockMappedWriteGuard (Nat × Nat) Nat :=
  { value := (5, 7), lens := fstLens }

/-- Witness for C10 at a concrete mapped guard. -/
theorem mapped_guard_drop_is_silent_witness :
    mappedGuardDropEvents mappedPair = [] :=
  (mapped_guard_drop_is_silent mappedPair "lock-a" 1).1

theorem lifecycle_traces_ordered (k : Kind) (name : String) (idx : Nat)
    (body : List Event) (h : Event.releaseTrace k name idx ∉ body) :
    (lifecycleEvents k name idx body)[0]? =
      some (Event.acqReq k name idx) ∧
    (lifecycleEvents k name idx body)[1]? =
      some (Event.grantHold k) ∧
    (lifecycleEvents k name idx body)[2]? =
      some (Event.got k name idx) ∧
    (lifecycleEvents k name idx body)[body.length + 3]? =
      some (Event.releaseTrace k name idx) ∧
    (lifecycleEvents k name idx body)[body.length + 4]? =
      some Event.releaseHold ∧
    (lifecycleEvents k name idx body).count
      (Event.releaseTrace k name idx) = 1 := by
  have hshape : lifecycleEvents k name idx body =
      Event.acqReq k name idx :: Event.grantHold k ::
        Event.got k name idx ::
          (body ++ [Event.releaseTrace k name idx, Event.releaseHold]) := by
    unfold lifecycleEvents acquireEvents guardDropEvents
    simp
  rw [hshape]
  refine ⟨by simp, by simp, by simp, ?_, ?_, ?_⟩
  · simp only [List.getElem?_cons_succ]
    rw [List.getElem?_append_right (Nat.le_refl body.length)]
    simp
  · simp only [List.getElem?_cons_succ]
    rw [List.getElem?_append_right (Nat.le_add_right body.length 1)]
    simp
  · simp only [List.count_cons, List.count_append]
    rw [List.count_eq_zero.mpr h]
    simp

/-- C4: for every successful acquisition, `read` or `write`, in the event
trace of the call whose guard is dropped after a critical section `body`
(any events of other calls, not this guard's own `Release` line), the
call's `Acquire` trace comes first, the underlying grant next, the `Got`
trace at guard construction right after the grant, and the `Release`
trace tagged with the same identity and sequence number is emitted exactly
once, at the guard's single destruction point, immediately before the
underlying hold is released. -/
theorem acquisition_traces_ordered (name : String) (idx : Nat)
    (body : List Event)
    (hr : Event.releaseTrace Kind.read name idx ∉ body)
    (hw : Event.releaseTrace Kind.write name idx ∉ body) :
    ((readLifecycleEvents name idx body)[0]? =
        some (Event.acqReq Kind.read name idx) ∧
      (readLifecycleEvents name idx body)[1]? =
        some (Event.grantHold Kind.read) ∧
      (readLifecycleEvents name idx body)[2]? =
        some (Event.got Kind.read name idx) ∧
      (readLifecycleEvents name idx body)[body.length + 3]? =
        some (Event.releaseTrace Kind.read name idx) ∧
      (readLifecycleEvents name idx body)[body.length + 4]? =
        some Event.releaseHold ∧
      (readLifecycleEvents name idx body).count
        (Event.releaseTrace Kind.read name idx) = 1) ∧
    ((writeLifecycleEvents name idx body)[0]? =
        some (Event.acqReq Kind.write name idx) ∧
      (writeLifecycleEvents name idx body)[1]? =
        some (Event.grantHold Kind.write) ∧
      (writeLifecycleEvents name idx body)[2]? =
        some (Event.got Kind.write name idx) ∧
      (writeLifecycleEvents name idx body)[body.length + 3]? =
        some (Event.releaseTrace Kind.write name idx) ∧
      (writeLifecycleEvents name idx body)[body.length + 4]? =
        some Event.releaseHold ∧
      (writeLifecycleEvents name idx body).count
        (Event.releaseTrace Kind.write name idx) = 1) := by
  have hread : readLifecycleEvents name idx body =
      lifecycleEvents Kind.read name idx body := rfl
  have hwrite : writeLifecycleEvents name idx body =
      lifecycleEvents Kind.write name idx body := rfl
  rw [hread, hwrite]
  exact ⟨lifecycle_traces_ordered Kind.read name idx body hr,
    lifecycle_traces_ordered Kind.write name idx body hw⟩

/-- Witness for C4 with an empty critical section, exercising both the
read and the write lifecycle. -/
theorem acquisition_traces_ordered_witness :
    (readLifecycleEvents "lock-c" 4 []).count
        (Event.releaseTrace Kind.read "lock-c" 4) = 1 ∧
    (writeLifecycleEvents "lock-c" 4 []).count
        (Event.releaseTrace Kind.write "lock-c" 4) = 1 ∧
    (readLifecycleEvents "lock-c" 4 [])[0]? =
      some (Event.acqReq Kind.read "lock-c" 4) :=
  ⟨(acquisition_traces_ordered "lock-c" 4 [] (List.not_mem_nil _)
      (List.not_mem_nil _)).1.2.2.2.2.2,
    (acquisition_traces_ordered "lock-c" 4 [] (List.not_mem_nil _)
      (List.not_mem_nil _)).2.2.2.2.2.2,
    (acquisition_traces_ordered "lock-c" 4 [] (List.not_mem_nil _)
      (List.not_mem_nil _)).1.1⟩

/-! ### Refinement helpers for the formatter -/

/-- One formatted line per retained frame, right-associated: the
presentation of the formatting fold the theorems compare against.  `none`
propagates a panic from any line. -/
def joinLines : List (Nat × Frame) → Option String
  | [] => some ""
  | p :: ps =>
    match formatLine p.1 p.2, joinLines ps with
    | some line, some rest => some (line ++ rest)
    | _, _ => none

theorem foldl_formatStep_none (xs : List (Nat × Frame)) :
    xs.foldl formatStep none = none := by
  induction xs with
  | nil => rfl
  | cons p ps ih => exact ih

theorem joinLines_cons (p : Nat × Frame) (ps : List (Nat × Frame)) :
    joinLines (p :: ps) =
      match formatLine p.1 p.2, joinLines ps with
      | some line, some rest => some (line ++ rest)
      | _, _ => none :=
  rfl

theorem foldl_formatStep_some (xs : List (Nat × Frame)) :
    ∀ a : String,
      xs.foldl formatStep (some a) = (joinLines xs).map fun s => a ++ s := by
  induction xs with
  | nil =>
    intro a
    show some a = some (a ++ "")
    rw [String.append_empty]
  | cons p ps ih =>
    intro a
    show List.foldl formatStep (formatStep (some a) p) ps = _
    rw [joinLines_cons]
    cases hl : formatLine p.1 p.2 with
    | none =>
      have hstep : formatStep (some a) p = none := by
        unfold formatStep
        rw [hl]
      rw [hstep, foldl_formatStep_none]
      rfl
    | some line =>
      have hstep : formatStep (some a) p = some (a ++ line) := by
        unfold formatStep
        rw [hl]
      rw [hstep, ih (a ++ line)]
      cases hj : joinLines ps with
      | none => rfl
      | some rest =>
        show some (a ++ line ++ rest) = some (a ++ (line ++ rest))
        rw [String.append_assoc]

/-- The source's formatting fold equals the line-by-line presentation. -/
theorem formatSymbols_eq_joinLines (xs : List (Nat × Frame)) :
    formatSymbols xs = joinLines xs := by
  unfold formatSymbols
  rw [foldl_formatStep_some xs ""]
  cases joinLines xs with
  | none => rfl
  | some s =>
    show some ("" ++ s) = some s
    rw [String.empty_append]

theorem cleanPath_filename_isSome {s : Frame} (h : cleanPath s = true) :
    s.filename.isSome = true := by
  cases hf : s.filename with
  | none =>
    unfold cleanPath at h
    rw [hf] at h
    exact absurd h (by simp)
  | some p => rfl

theorem formatLine_isSome {i : Nat} {s : Frame}
    (h1 : s.filename.isSome = true) (h2 : s.lineno.isSome = true)
    (h3 : s.name.isSome = true) : (formatLine i s).isSome = true := by
  unfold formatLine
  cases hf : s.filename with
  | none => rw [hf] at h1; exact absurd h1 (by simp)
  | some p =>
    cases hl : s.lineno with
    | none => rw [hl] at h2; exact absurd h2 (by simp)
    | some l =>
      cases hn : s.name with
      | none => rw [hn] at h3; exact absurd h3 (by simp)
      | some n => rfl

theorem joinLines_isSome (xs : List (Nat × Frame))
    (h : ∀ p ∈ xs, (formatLine p.1 p.2).isSome = true) :
    (joinLines xs).isSome = true := by
  induction xs with
  | nil => rfl
  | cons p ps ih =>
    have hp := h p (List.mem_cons_self p ps)
    have hps := ih fun q hq => h q (List.mem_cons_of_mem p hq)
    unfold joinLines
    cases hl : formatLine p.1 p.2 with
    | none => rw [hl] at hp; exact absurd hp (by simp)
    | some line =>
      cases hj : joinLines ps with
      | none => rw [hj] at hps; exact absurd hps (by simp)
      | some rest => rfl

/-! ### Claim C3: what the filter drops, and what formatting panics on -/

/-- A symbol inside the instrumentation module itself (its path ends with
`src/lib.rs`): the post-skip sequence begins here. -/
def frameInModule : Frame :=
  { filename := some "/repo/src/lib.rs", lineno := some 156,
    name := some "rwlock::log" }

/-- Two further wrapper symbols below the skip point, covered by
`FRAME_OFFSET`. -/
def frameWrapperA : Frame :=
  { filename := some "/repo/src/lib.rs", lineno := some 32,
    name := some "rwlock::read" }

def frameWrapperB : Frame :=
  { filename := some "/repo/src/lib.rs", lineno := some 61,
    name := some "rwlock::drop" }

/-- A caller frame with a resolvable, toolchain-free path but no line
number. -/
def frameNoLine : Frame :=
  { filename := some "/app/src/main.rs", lineno := none,
    name := some "app::main" }

def framesMissingLine : List Frame :=
  [frameInModule, frameWrapperA, frameWrapperB, frameNoLine]

/-- C3 (counterexample): a frame lacking a line number is NOT dropped by the
frame filter — it is retained (its path is resolvable and clean), and the
formatting fold then panics on it (`lineno().unwrap()`, line 183), modelled
by `none`: filtering plus formatting does fail on such a stack. -/
theorem frame_missing_line_panics :
    (filterSymbols framesMissingLine).map Prod.snd = [frameNoLine] ∧
    frameNoLine.lineno = none ∧
    logBacktrace "[READ] Release" framesMissingLine = none := by
  decide

/-- C3 (amended): every frame the filter retains has a resolvable source
path — path-less frames are always silently dropped, and filtering itself
never fails — and formatting succeeds whenever every retained frame also
carries a line number and a symbol name.  (A retained frame missing either
of those makes formatting panic, as the counterexample shows.) -/
theorem pathless_frames_dropped (frames : List Frame) :
    (∀ p ∈ filterSymbols frames, p.2.filename.isSome = true) ∧
    ((∀ p ∈ filterSymbols frames,
        p.2.lineno.isSome = true ∧ p.2.name.isSome = true) →
      (formatSymbols (filterSymbols frames)).isSome = true) := by
  have hclean : ∀ p ∈ filterSymbols frames, cleanPath p.2 = true := by
    intro p hp
    unfold filterSymbols at hp
    have hk0 := List.of_mem_filter hp
    have hk : keepFrame p.1 p.2 = true := hk0
    unfold keepFrame at hk
    exact (Bool.and_eq_true _ _ |>.mp hk).2
  refine ⟨fun p hp => cleanPath_filename_isSome (hclean p hp), fun hall => ?_⟩
  rw [formatSymbols_eq_joinLines]
  refine joinLines_isSome _ fun p hp => ?_
  exact formatLine_isSome (cleanPath_filename_isSome (hclean p hp))
    (hall p hp).1 (hall p hp).2

/-- A fully resolved caller frame. -/
def frameResolvedCaller : Frame :=
  { filename := some "/app/src/bin.rs", lineno := some 9,
    name := some "app::run" }

def framesAllResolved : List Frame :=
  [frameInModule, frameWrapperA, frameWrapperB, frameResolvedCaller]

/-- Witness for C3 (amended) on a stack whose retained frames are fully
resolved. -/
theorem pathless_frames_dropped_witness :
    (formatSymbols (filterSymbols framesAllResolved)).isSome = true :=
  (pathless_frames_dropped framesAllResolved).2 (by decide)

/-! ### Claim C5: the shape of the frame filter -/

/-- The frame filter as claim C5 words it (for comparison with the source
pipeline): (a) skip frames belonging to the instrumentation module's own
source until the first frame outside that module, retaining frames only
from that point, and (b) of the remaining frames exclude those whose source
path contains a toolchain or dependency-cache marker.  (The claim says
nothing about unresolvable frames at either stage; the choices made for
them here do not matter to the counterexample, whose frames are all
resolved.) -/
def filterSymbolsSpec (frames : List Frame) : List Frame :=
  (frames.dropWhile fun s =>
      match s.filename with
      | some p => pathEndsWith p thisFile
      | none => false).filter fun s =>
    match s.filename with
    | some p =>
        !(strContains p ".cargo") && !(strContains p ".rustup") &&
          !(strContains p "/rustc")
    | none => true

/-- A lone caller frame outside the instrumentation module, with a clean
resolved path. -/
def frameOutsideOnly : Frame :=
  { filename := some "/home/user/app/src/main.rs", lineno := some 3,
    name := some "app::main" }

/-- C5 (counterexample): on a stack consisting of one frame outside the
instrumentation module, the filter described by the claim retains it, but
the source's filter returns nothing: the code skips frames until the first
frame *inside* the module (opposite polarity), then discards
`FRAME_OFFSET` more by position — it does not skip the module's own frames
until the first outside frame. -/
theorem filter_skips_until_module_frame :
    filterSymbolsSpec [frameOutsideOnly] = [frameOutsideOnly] ∧
    filterSymbols [frameOutsideOnly] = [] ∧
    (filterSymbols [frameOutsideOnly]).map Prod.snd ≠
      filterSymbolsSpec [frameOutsideOnly] := by
  decide

/-- The source filter restated per the amended claim: skip frames
(resolvable or not) until the first frame whose path ends with the
instrumentation module's own file, drop the first `FRAME_OFFSET` frames
from that point by position, and of the rest keep exactly the frames whose
resolved path is free of the `.cargo`, `.rustup` and `/rustc` markers
(frames with no path are excluded too). -/
def filterSymbolsAmended (frames : List Frame) : List Frame :=
  ((frames.dropWhile skipUntilThisFile).drop FRAME_OFFSET).filter cleanPath

theorem enumFrom_filter_ge {α : Type} (q : α → Bool) (k : Nat) :
    ∀ (l : List α) (n : Nat),
      (((List.enumFrom n l).filter fun p => decide (k ≤ p.1) && q p.2).map
          Prod.snd) =
        (l.drop (k - n)).filter q := by
  intro l
  induction l with
  | nil => intro n; simp
  | cons c cs ih =>
    intro n
    by_cases hkn : k ≤ n
    · have h0 : k - n = 0 := by omega
      have h1 : k - (n + 1) = 0 := by omega
      have ih1 := ih (n + 1)
      rw [h1, List.drop_zero] at ih1
      have hcond : (fun p : Nat × α => decide (k ≤ p.1) && q p.2) (n, c) =
          q c := by
        show (decide (k ≤ n) && q c) = q c
        rw [decide_eq_true hkn, Bool.true_and]
      rw [List.enumFrom_cons, h0, List.drop_zero]
      cases hq : q c with
      | true =>
        have hpc : (fun p : Nat × α => decide (k ≤ p.1) && q p.2) (n, c) =
            true := by rw [hcond, hq]
        rw [@List.filter_cons_of_pos _
            (fun p : Nat × α => decide (k ≤ p.1) && q p.2) (n, c)
            (List.enumFrom (n + 1) cs) hpc,
          List.filter_cons_of_pos hq, List.map_cons, ih1]
      | false =>
        have hpc : ¬ (fun p : Nat × α => decide (k ≤ p.1) && q p.2) (n, c) =
            true := by rw [hcond, hq]; decide
        have hq2 : ¬ q c = true := by rw [hq]; decide
        rw [@List.filter_cons_of_neg _
            (fun p : Nat × α => decide (k ≤ p.1) && q p.2) (n, c)
            (List.enumFrom (n + 1) cs) hpc,
          List.filter_cons_of_neg hq2, ih1]
    · have hsub : k - n = (k - (n + 1)) + 1 := by omega
      have hcond : ¬ (fun p : Nat × α => decide (k ≤ p.1) && q p.2) (n, c) =
          true := by
        show ¬ (decide (k ≤ n) && q c) = true
        rw [decide_eq_false hkn, Bool.false_and]
        decide
      rw [List.enumFrom_cons,
        @List.filter_cons_of_neg _
          (fun p : Nat × α => decide (k ≤ p.1) && q p.2) (n, c)
          (List.enumFrom (n + 1) cs) hcond,
        ih (n + 1), hsub, List.drop_succ_cons]

/-- C5 (amended): the source filter equals the amended description — skip
until the first in-module frame, drop `FRAME_OFFSET` frames by position,
then exclude marker and path-less frames — and (part (b), which survives
from the claim) every frame it retains has a resolved path free of
toolchain markers, including when excluded frames sat between retained
ones. -/
theorem filter_drops_offset_then_markers (frames : List Frame) :
    (filterSymbols frames).map Prod.snd = filterSymbolsAmended frames ∧
    ∀ s ∈ filterSymbolsAmended frames, cleanPath s = true := by
  constructor
  · unfold filterSymbols filterSymbolsAmended keepFrame
    rw [List.enum_eq_enumFrom,
      enumFrom_filter_ge cleanPath FRAME_OFFSET _ 0, Nat.sub_zero]
  · intro s hs
    unfold filterSymbolsAmended at hs
    have h0 := List.of_mem_filter hs
    exact h0

/-- Witness for C5 (amended) on a concrete stack. -/
theorem filter_drops_offset_then_markers_witness :
    (filterSymbols framesAllResolved).map Prod.snd =
      filterSymbolsAmended framesAllResolved :=
  (filter_drops_offset_then_markers framesAllResolved).1

/-! ### Claim C6: the shape of the formatted output -/

/-- A toolchain frame (dependency cache path) sitting right at position
`FRAME_OFFSET` of the post-skip sequence. -/
def frameCargo : Frame :=
  { filename := some "/home/user/.cargo/registry/src/tokio/park.rs",
    lineno := some 99, name := some "tokio::park" }

/-- The caller frame retained after the toolchain frame. -/
def frameCaller : Frame :=
  { filename := some "/app/src/main.rs", lineno := some 7,
    name := some "app::main" }

def framesGapped : List Frame :=
  [frameInModule, frameWrapperA, frameWrapperB, frameCargo, frameCaller]

/-- C6 (counterexample): when a toolchain frame is excluded at post-skip
position `FRAME_OFFSET`, the first retained frame prints relative index
`4 - FRAME_OFFSET = 1`, not `0`: the indices are not renumbered
consecutively from zero, and the line prints the symbol name bare, with no
brackets around it. -/
theorem first_retained_index_not_zero :
    (filterSymbols framesGapped).map (fun p => p.1 - FRAME_OFFSET) = [1] ∧
    [1] ≠ List.range 1 ∧
    logBacktrace "[WRITE] Got" framesGapped =
      some (Level.warn, "[WRITE] Got:\n[1] /app/src/main.rs:7 app::main\n") := by
  decide

/-- C6 (amended): the output is exactly one line per retained frame — each
of the form produced by `formatLine`, i.e.
`[i - FRAME_OFFSET] source-path:line-number symbol-name` where `i` is the
frame's position in the post-skip sequence (so the printed indices are
those positions shifted down by `FRAME_OFFSET`, not a consecutive
renumbering from zero) — concatenated in order under the single leading
`message:` header and emitted at warning severity; a panic in any line
propagates. -/
theorem one_line_per_retained_frame (msg : String) (frames : List Frame) :
    logBacktrace msg frames =
      (joinLines (filterSymbols frames)).map fun out =>
        (Level.warn, msg ++ ":\n" ++ out) := by
  unfold logBacktrace
  rw [formatSymbols_eq_joinLines]
  cases joinLines (filterSymbols frames) with
  | none => rfl
  | some out => rfl

/-- Witness for C6 (amended) at a concrete message and stack. -/
theorem one_line_per_retained_frame_witness :
    logBacktrace "[READ] Got" framesGapped =
      (joinLines (filterSymbols framesGapped)).map fun out =>
        (Level.warn, "[READ] Got" ++ ":\n" ++ out) :=
  one_line_per_retained_frame "[READ] Got" framesGapped

end RwLockTrace
